import Mathlib

/-!
Shallow embedding of `neural_models/hindmarsh_rose.py` (class `HindmarshRose`).

Two layers are modelled:

* A construction layer over Python runtime values (`PyVal`), covering
  `__init__`'s keyword-argument handling and `check_parameters`'s
  `isinstance(..., (int, float))` assertions.

* A numeric layer over exact rationals (`ℚ` stands in for Python's real
  scalars), covering `tvec` (`np.arange`), `system_equations` and `run`.
  `scipy.integrate.odeint` is external library code; `run` is therefore
  parameterised by a solver function, and `OdeintContract` records the
  documented interface of `odeint` (one output row per requested time point,
  first row equal to the initial state, an error when the right-hand side
  raises or returns a vector whose size differs from `y0`).  Failure is
  modelled with `Except`/`Option String` in place of Python exceptions.
-/

/-- Python runtime values, to the extent the constructor and the
`isinstance` checks in `check_parameters` distinguish them. -/
inductive PyVal where
  | int : ℤ → PyVal
  | float : ℚ → PyVal
  | bool : Bool → PyVal
  | str : String → PyVal
  | pynone : PyVal
  | list : List PyVal → PyVal

/-- `isinstance(v, (int, float))`.  Python's `bool` is a subclass of `int`,
so booleans count as numeric. -/
def PyVal.isNumeric : PyVal → Bool
  | .int _ => true
  | .float _ => true
  | .bool _ => true
  | _ => false

/-- `kwargs.get(key, dflt)`: keyword arguments as an association list. -/
def kwGet (kwargs : List (String × PyVal)) (key : String) (dflt : PyVal) : PyVal :=
  (kwargs.lookup key).getD dflt

/-- The attributes a `HindmarshRose` object holds after the assignment part
of `__init__` (before `check_parameters` runs). -/
structure HindmarshRoseObj where
  I : PyVal
  a : PyVal
  b : PyVal
  c : PyVal
  d : PyVal
  r : PyVal
  s : PyVal
  x1 : PyVal
  dt : PyVal
  time : PyVal

/-- The attribute assignments of `__init__`: each recognised option is read
from the keyword arguments with its default (`kwargs.get("I", 1)` and so on);
anything else in `kwargs` is never read. -/
def initAttrs (kwargs : List (String × PyVal)) : HindmarshRoseObj where
  I := kwGet kwargs "I" (.int 1)
  a := kwGet kwargs "a" (.float (1/2))
  b := kwGet kwargs "b" (.float (1/2))
  c := kwGet kwargs "c" (.float (1/2))
  d := kwGet kwargs "d" (.float (1/2))
  r := kwGet kwargs "r" (.int 1)
  s := kwGet kwargs "s" (.int 1)
  x1 := kwGet kwargs "x1" (.int (-1))
  dt := kwGet kwargs "dt" (.float (1/100))
  time := kwGet kwargs "time" (.int 100)

/-- The ten recognised constructor options. -/
def recognizedOptions : List String :=
  ["I", "a", "b", "c", "d", "r", "s", "x1", "dt", "time"]

/-- `check_parameters`: the chain of `assert isinstance(..., (int, float))`
statements, in source order (note the source checks `x1` before `s`).
A failing assertion raises `AssertionError` with the given message. -/
def check_parameters (m : HindmarshRoseObj) : Except String Unit :=
  if !m.I.isNumeric then .error "The current (I) has to be a number."
  else if !m.a.isNumeric then .error "The parameter a has to be a number."
  else if !m.b.isNumeric then .error "The parameter b has to be a number."
  else if !m.c.isNumeric then .error "The parameter c has to be a number."
  else if !m.d.isNumeric then .error "The parameter d has to be a number."
  else if !m.r.isNumeric then .error "The parameter r has to be a number."
  else if !m.x1.isNumeric then .error "The parameter x1 has to be a number."
  else if !m.s.isNumeric then .error "The parameter s has to be a number."
  else if !m.dt.isNumeric then .error "The step (dt) has to be a number."
  else if !m.time.isNumeric then .error "The time has to be a number."
  else .ok ()

/-- The whole of `__init__`: assign the attributes, then run
`check_parameters`; a failing assertion aborts construction. -/
def hindmarshRoseInit (kwargs : List (String × PyVal)) : Except String HindmarshRoseObj :=
  let m := initAttrs kwargs
  match check_parameters m with
  | .error e => .error e
  | .ok _ => .ok m

/-- The numeric model object: the ten validated configuration attributes as
exact rationals, plus the trajectory attributes `x`, `y`, `z` set by `run`
(empty before any run).  The field defaults are the constructor defaults. -/
structure HindmarshRose where
  I : ℚ := 1
  a : ℚ := 1/2
  b : ℚ := 1/2
  c : ℚ := 1/2
  d : ℚ := 1/2
  r : ℚ := 1
  s : ℚ := 1
  x1 : ℚ := -1
  dt : ℚ := 1/100
  time : ℚ := 100
  x : List ℚ := []
  y : List ℚ := []
  z : List ℚ := []
deriving DecidableEq

deriving instance DecidableEq for Except

/-- `np.arange(start, stop, step)` over exact rationals: `step = 0` raises
`ZeroDivisionError`; otherwise the result has `ceil((stop - start) / step)`
entries (none when that is non-positive), the `i`-th being
`start + i * step`.  `Rat.ceil` is the executable ceiling; it agrees with
the mathematical `Int.ceil` (`ratCeil_eq_intCeil` below). -/
def arange (start stop step : ℚ) : Except String (List ℚ) :=
  if step = 0 then .error "ZeroDivisionError: division by zero"
  else .ok ((List.range ((stop - start) / step).ceil.toNat).map
    (fun i : ℕ => start + (i : ℚ) * step))

/-- The `tvec` property: `np.arange(0, self.time, self.dt)`, recomputed from
the current attributes on every access. -/
def HindmarshRose.tvec (m : HindmarshRose) : Except String (List ℚ) :=
  arange 0 m.time m.dt

/-- `system_equations(self, X, t, I)`: the Hindmarsh-Rose right-hand side.
Indexing `X[0]`, `X[1]`, `X[2]` raises `IndexError` when `X` is too short;
the parameter `t` is accepted but never used. -/
def HindmarshRose.system_equations (m : HindmarshRose) (X : List ℚ) (t Iv : ℚ) :
    Except String (List ℚ) :=
  match X[0]?, X[1]?, X[2]? with
  | some x0, some xv1, some x2 =>
    .ok [xv1 - m.a * x0 ^ 3 + m.b * x0 ^ 2 - x2 + Iv,
         m.c - m.d * x0 ^ 2 - xv1,
         m.r * (m.s * (x0 - m.x1) - x2)]
  | _, _, _ => .error "IndexError: list index out of range"

/-- The type of right-hand-side functions handed to the solver:
state, time, extra current argument. -/
abbrev RHS : Type := List ℚ → ℚ → ℚ → Except String (List ℚ)

/-- The type of the external ODE solver (`scipy.integrate.odeint`):
right-hand side, initial state `y0`, time points `t`, frozen extra
argument; returns the matrix of state rows or an error. -/
abbrev SolverFn : Type := RHS → List ℚ → List ℚ → ℚ → Except String (List (List ℚ))

/-- The documented interface of `scipy.integrate.odeint`:

* the output has one row per requested time point, each row the size of
  `y0`, and its first row is `y0` itself;
* when the time sequence has at least two points, a right-hand side that
  raises on the initial state, or returns a vector whose size differs from
  `y0`, makes the solver raise;
* on a single-point time sequence with a well-formed right-hand side the
  solver returns `[y0]` (no integration step is needed). -/
structure OdeintContract (f : SolverFn) : Prop where
  length_eq : ∀ rhs y0 t Iv X, f rhs y0 t Iv = .ok X → X.length = t.length
  row_length : ∀ rhs y0 t Iv X, f rhs y0 t Iv = .ok X → ∀ row ∈ X, row.length = y0.length
  first_row : ∀ rhs y0 t Iv X, f rhs y0 t Iv = .ok X → t ≠ [] → X.head? = some y0
  rhs_error : ∀ rhs y0 t0 t1 rest Iv e, rhs y0 t0 Iv = .error e →
    ∃ e2, f rhs y0 (t0 :: t1 :: rest) Iv = .error e2
  size_mismatch : ∀ rhs y0 t0 t1 rest Iv l, rhs y0 t0 Iv = .ok l → l.length ≠ y0.length →
    ∃ e2, f rhs y0 (t0 :: t1 :: rest) Iv = .error e2
  single_point : ∀ rhs y0 t0 Iv l, rhs y0 t0 Iv = .ok l → l.length = y0.length →
    f rhs y0 [t0] Iv = .ok [y0]

/-- A concrete solver satisfying `OdeintContract`, used to instantiate the
solver-parametric theorems: it validates the right-hand side at the initial
point exactly as the contract requires and reports every state as `y0`. -/
def simpleSolver : SolverFn := fun rhs y0 t Iv =>
  match t with
  | [] => .error "odeint: empty time sequence"
  | t0 :: _ =>
    match rhs y0 t0 Iv with
    | .error e => .error e
    | .ok l =>
      if l.length = y0.length then .ok (t.map (fun _ => y0))
      else .error "RuntimeError: the size of the array returned by func does not match y0"

/-- A second concrete solver satisfying `OdeintContract`, mirroring the
real `odeint` more closely on one-point time sequences: when only the
initial time is requested it returns `[y0]` without ever evaluating the
right-hand side (so no size check and no exception from the right-hand
side can occur there); on longer sequences it validates like
`simpleSolver`. -/
def lazySolver : SolverFn := fun rhs y0 t Iv =>
  match t with
  | [] => .error "odeint: empty time sequence"
  | [_] => .ok [y0]
  | t0 :: _ :: _ =>
    match rhs y0 t0 Iv with
    | .error e => .error e
    | .ok l =>
      if l.length = y0.length then .ok (t.map (fun _ => y0))
      else .error "RuntimeError: the size of the array returned by func does not match y0"

/-- Column `j` of the solver output matrix (`X[:, j]`), assuming the rows
are long enough (callers check that first, as numpy does). -/
def column (X : List (List ℚ)) (j : ℕ) : List ℚ :=
  X.map (fun row => row.getD j 0)

/-- The body of `run` after the current has been resolved: build `tvec`,
call the solver (`odeint(self.system_equations, X0, self.tvec, (I,))`) and
split the result into the columns `self.x`, `self.y`, `self.z`.
`X[:, 2]` raises `IndexError` when the rows are shorter than 3.
An exception leaves the object as it was at the call (`.2 = some msg`). -/
def HindmarshRose.integrate (m : HindmarshRose) (solver : SolverFn) (X0 : List ℚ)
    (Ieff : ℚ) : HindmarshRose × Option String :=
  match m.tvec with
  | .error e => (m, some e)
  | .ok t =>
    match solver m.system_equations X0 t Ieff with
    | .error e => (m, some e)
    | .ok X =>
      if X.all (fun row => 2 < row.length) then
        ({ m with x := column X 0, y := column X 1, z := column X 2 }, none)
      else (m, some "IndexError: index 2 is out of bounds for axis 1")

/-- `run(self, X0=[0, 0, 0], I=None)`: with `I` omitted the stored current
is used; with `I` supplied the stored current is overwritten first (the
documented side effect).  The Python method returns `None`; its effect is
the updated object, paired with the raised exception message if any. -/
def HindmarshRose.run (m : HindmarshRose) (solver : SolverFn)
    (X0 : List ℚ := [0, 0, 0]) (Iarg : Option ℚ := none) : HindmarshRose × Option String :=
  match Iarg with
  | none => m.integrate solver X0 m.I
  | some v => HindmarshRose.integrate { m with I := v } solver X0 v

/-! ## Helper lemmas -/

theorem ratCeil_eq_intCeil (q : ℚ) : q.ceil = ⌈q⌉ := by
  symm
  rw [Int.ceil_eq_iff]
  unfold Rat.ceil
  split_ifs with h
  · rw [Rat.coe_int_num_of_den_eq_one h]
    exact ⟨by linarith, le_refl q⟩
  · have hfl : (q.num / (q.den : ℤ)) = ⌊q⌋ := Rat.floor_def.symm
    rw [hfl]
    have hne : ((⌊q⌋ : ℚ)) ≠ q := by
      intro he
      exact h (by rw [← he]; exact Rat.den_intCast _)
    have hlt : ((⌊q⌋ : ℚ)) < q := lt_of_le_of_ne (Int.floor_le q) hne
    have hup := (Int.lt_floor_add_one q).le
    constructor
    · push_cast
      linarith
    · push_cast
      linarith

theorem arange_ok (start stop step : ℚ) (h : step ≠ 0) :
    arange start stop step =
      .ok ((List.range (⌈(stop - start) / step⌉).toNat).map
        (fun i : ℕ => start + (i : ℚ) * step)) := by
  simp [arange, h, ratCeil_eq_intCeil]

theorem tvec_grid_of_pos (m : HindmarshRose) (hdt : 0 < m.dt) (ht : 0 < m.time) :
    ∃ l, m.tvec = .ok l ∧
      l.length = (⌈m.time / m.dt⌉).toNat ∧
      (∀ i : ℕ, i < l.length → l[i]? = some ((i : ℚ) * m.dt)) ∧
      (∀ q ∈ l, 0 ≤ q ∧ q < m.time) := by
  have hne : m.dt ≠ 0 := ne_of_gt hdt
  refine ⟨(List.range (⌈m.time / m.dt⌉).toNat).map (fun i : ℕ => (i : ℚ) * m.dt),
    ?_, ?_, ?_, ?_⟩
  · rw [HindmarshRose.tvec, arange_ok _ _ _ hne, sub_zero]
    congr 1
    apply List.map_congr_left
    intro i _
    rw [zero_add]
  · rw [List.length_map, List.length_range]
  · intro i hi
    rw [List.length_map, List.length_range] at hi
    rw [List.getElem?_map, List.getElem?_range hi]
    rfl
  · intro q hq
    rw [List.mem_map] at hq
    obtain ⟨i, hi, rfl⟩ := hq
    rw [List.mem_range] at hi
    have hiz : (i : ℤ) < ⌈m.time / m.dt⌉ := Int.lt_toNat.mp hi
    have hiq : (i : ℚ) < m.time / m.dt := by
      exact_mod_cast Int.lt_ceil.mp hiz
    constructor
    · positivity
    · calc (i : ℚ) * m.dt < (m.time / m.dt) * m.dt :=
            mul_lt_mul_of_pos_right hiq hdt
        _ = m.time := div_mul_cancel₀ _ hne


theorem tvec_mk_traj (m : HindmarshRose) (A B C : List ℚ) :
    HindmarshRose.tvec { m with x := A, y := B, z := C } = m.tvec := rfl

theorem se_mk_traj (m : HindmarshRose) (A B C : List ℚ) :
    HindmarshRose.system_equations { m with x := A, y := B, z := C } =
      m.system_equations := rfl

theorem se_mk_I (m : HindmarshRose) (v : ℚ) :
    HindmarshRose.system_equations { m with I := v } = m.system_equations := rfl

theorem run_none_eq (m : HindmarshRose) (f : SolverFn) (X0 : List ℚ) :
    m.run f X0 none = m.integrate f X0 m.I := rfl

theorem run_some_eq (m : HindmarshRose) (f : SolverFn) (X0 : List ℚ) (v : ℚ) :
    m.run f X0 (some v) = HindmarshRose.integrate { m with I := v } f X0 v := rfl

theorem integrate_of_tvec_error (m : HindmarshRose) (f : SolverFn) (X0 : List ℚ)
    (Ieff : ℚ) (e : String) (ht : m.tvec = .error e) :
    m.integrate f X0 Ieff = (m, some e) := by
  unfold HindmarshRose.integrate
  rw [ht]

theorem integrate_of_solver_error (m : HindmarshRose) (f : SolverFn) (X0 : List ℚ)
    (Ieff : ℚ) (t : List ℚ) (e : String) (ht : m.tvec = .ok t)
    (hs : f m.system_equations X0 t Ieff = .error e) :
    m.integrate f X0 Ieff = (m, some e) := by
  unfold HindmarshRose.integrate
  simp only [ht, hs]

theorem integrate_of_success (m : HindmarshRose) (f : SolverFn) (X0 : List ℚ)
    (Ieff : ℚ) (t : List ℚ) (X : List (List ℚ)) (ht : m.tvec = .ok t)
    (hX : f m.system_equations X0 t Ieff = .ok X)
    (hall : (X.all fun row => 2 < row.length) = true) :
    m.integrate f X0 Ieff =
      ({ m with x := column X 0, y := column X 1, z := column X 2 }, none) := by
  unfold HindmarshRose.integrate
  simp only [ht, hX, hall, if_true]

theorem integrate_of_unpack_error (m : HindmarshRose) (f : SolverFn) (X0 : List ℚ)
    (Ieff : ℚ) (t : List ℚ) (X : List (List ℚ)) (ht : m.tvec = .ok t)
    (hX : f m.system_equations X0 t Ieff = .ok X)
    (hall : ¬ (X.all fun row => 2 < row.length) = true) :
    m.integrate f X0 Ieff = (m, some "IndexError: index 2 is out of bounds for axis 1") := by
  unfold HindmarshRose.integrate
  simp only [ht, hX, if_neg hall]

theorem integrate_cases (m : HindmarshRose) (f : SolverFn) (X0 : List ℚ) (Ieff : ℚ) :
    (∃ e, m.integrate f X0 Ieff = (m, some e)) ∨
    (∃ t X, m.tvec = .ok t ∧ f m.system_equations X0 t Ieff = .ok X ∧
      (X.all fun row => 2 < row.length) = true ∧
      m.integrate f X0 Ieff =
        ({ m with x := column X 0, y := column X 1, z := column X 2 }, none)) := by
  rcases ht : m.tvec with e | t
  · exact .inl ⟨e, integrate_of_tvec_error m f X0 Ieff e ht⟩
  · rcases hX : f m.system_equations X0 t Ieff with e | X
    · exact .inl ⟨e, integrate_of_solver_error m f X0 Ieff t e ht hX⟩
    · by_cases hall : (X.all fun row => 2 < row.length) = true
      · exact .inr ⟨t, X, rfl, hX, hall, integrate_of_success m f X0 Ieff t X ht hX hall⟩
      · exact .inl ⟨_, integrate_of_unpack_error m f X0 Ieff t X ht hX hall⟩

theorem integrate_update_traj (m : HindmarshRose) (f : SolverFn) (X0 : List ℚ)
    (Ieff : ℚ) (A B C : List ℚ) :
    ((HindmarshRose.integrate { m with x := A, y := B, z := C } f X0 Ieff).2 =
      (m.integrate f X0 Ieff).2) ∧
    ((m.integrate f X0 Ieff).2 = none →
      HindmarshRose.integrate { m with x := A, y := B, z := C } f X0 Ieff =
        m.integrate f X0 Ieff) := by
  rcases ht : m.tvec with e | t
  · have h1 := integrate_of_tvec_error m f X0 Ieff e ht
    have h2 := integrate_of_tvec_error { m with x := A, y := B, z := C } f X0 Ieff e
      ((tvec_mk_traj m A B C).trans ht)
    rw [h1, h2]
    exact ⟨rfl, by simp⟩
  · rcases hX : f m.system_equations X0 t Ieff with e | X
    · have h1 := integrate_of_solver_error m f X0 Ieff t e ht hX
      have h2 := integrate_of_solver_error { m with x := A, y := B, z := C } f X0 Ieff t e
        ((tvec_mk_traj m A B C).trans ht)
        (by rw [se_mk_traj]; exact hX)
      rw [h1, h2]
      exact ⟨rfl, by simp⟩
    · by_cases hall : (X.all fun row => 2 < row.length) = true
      · have h1 := integrate_of_success m f X0 Ieff t X ht hX hall
        have h2 := integrate_of_success { m with x := A, y := B, z := C } f X0 Ieff t X
          ((tvec_mk_traj m A B C).trans ht)
          (by rw [se_mk_traj]; exact hX) hall
        rw [h1, h2]
        exact ⟨rfl, fun _ => rfl⟩
      · have h1 := integrate_of_unpack_error m f X0 Ieff t X ht hX hall
        have h2 := integrate_of_unpack_error { m with x := A, y := B, z := C } f X0 Ieff t X
          ((tvec_mk_traj m A B C).trans ht)
          (by rw [se_mk_traj]; exact hX) hall
        rw [h1, h2]
        exact ⟨rfl, by simp⟩

theorem se_error_of_short (m : HindmarshRose) (X : List ℚ) (t Iv : ℚ)
    (h : X.length < 3) : ∃ e, m.system_equations X t Iv = .error e := by
  have h2 : X[2]? = none := by
    rw [List.getElem?_eq_none_iff]
    omega
  unfold HindmarshRose.system_equations
  cases h0 : X[0]? <;> cases h1 : X[1]? <;> rw [h2] <;> exact ⟨_, rfl⟩

theorem se_ok_of_long (m : HindmarshRose) (X : List ℚ) (t Iv : ℚ)
    (h : 3 ≤ X.length) : ∃ l, m.system_equations X t Iv = .ok l ∧ l.length = 3 := by
  have h0 : X[0]? = some X[0] := List.getElem?_eq_getElem (by omega)
  have h1 : X[1]? = some X[1] := List.getElem?_eq_getElem (by omega)
  have h2 : X[2]? = some X[2] := List.getElem?_eq_getElem (by omega)
  unfold HindmarshRose.system_equations
  rw [h0, h1, h2]
  exact ⟨_, rfl, rfl⟩


theorem simpleSolver_nil (rhs : RHS) (y0 : List ℚ) (Iv : ℚ) :
    simpleSolver rhs y0 [] Iv = .error "odeint: empty time sequence" := rfl

theorem simpleSolver_cons_rhs_error (rhs : RHS) (y0 : List ℚ) (t0 : ℚ) (rest : List ℚ)
    (Iv : ℚ) (e : String) (hr : rhs y0 t0 Iv = .error e) :
    simpleSolver rhs y0 (t0 :: rest) Iv = .error e := by
  unfold simpleSolver
  simp only [hr]

theorem simpleSolver_cons_ok (rhs : RHS) (y0 : List ℚ) (t0 : ℚ) (rest : List ℚ)
    (Iv : ℚ) (l : List ℚ) (hr : rhs y0 t0 Iv = .ok l) (hl : l.length = y0.length) :
    simpleSolver rhs y0 (t0 :: rest) Iv = .ok ((t0 :: rest).map (fun _ => y0)) := by
  unfold simpleSolver
  simp only [hr, if_pos hl]

theorem simpleSolver_cons_mismatch (rhs : RHS) (y0 : List ℚ) (t0 : ℚ) (rest : List ℚ)
    (Iv : ℚ) (l : List ℚ) (hr : rhs y0 t0 Iv = .ok l) (hl : l.length ≠ y0.length) :
    simpleSolver rhs y0 (t0 :: rest) Iv =
      .error "RuntimeError: the size of the array returned by func does not match y0" := by
  unfold simpleSolver
  simp only [hr, if_neg hl]

theorem simpleSolver_contract : OdeintContract simpleSolver := by
  constructor
  · intro rhs y0 t Iv X h
    cases t with
    | nil => rw [simpleSolver_nil] at h; exact absurd h (by simp)
    | cons t0 rest =>
      rcases hr : rhs y0 t0 Iv with e | l
      · rw [simpleSolver_cons_rhs_error rhs y0 t0 rest Iv e hr] at h
        exact absurd h (by simp)
      · by_cases hl : l.length = y0.length
        · rw [simpleSolver_cons_ok rhs y0 t0 rest Iv l hr hl] at h
          cases h
          rw [List.length_map]
        · rw [simpleSolver_cons_mismatch rhs y0 t0 rest Iv l hr hl] at h
          exact absurd h (by simp)
  · intro rhs y0 t Iv X h row hrow
    cases t with
    | nil => rw [simpleSolver_nil] at h; exact absurd h (by simp)
    | cons t0 rest =>
      rcases hr : rhs y0 t0 Iv with e | l
      · rw [simpleSolver_cons_rhs_error rhs y0 t0 rest Iv e hr] at h
        exact absurd h (by simp)
      · by_cases hl : l.length = y0.length
        · rw [simpleSolver_cons_ok rhs y0 t0 rest Iv l hr hl] at h
          cases h
          rw [List.mem_map] at hrow
          obtain ⟨i, -, rfl⟩ := hrow
          rfl
        · rw [simpleSolver_cons_mismatch rhs y0 t0 rest Iv l hr hl] at h
          exact absurd h (by simp)
  · intro rhs y0 t Iv X h hne
    cases t with
    | nil => exact absurd rfl hne
    | cons t0 rest =>
      rcases hr : rhs y0 t0 Iv with e | l
      · rw [simpleSolver_cons_rhs_error rhs y0 t0 rest Iv e hr] at h
        exact absurd h (by simp)
      · by_cases hl : l.length = y0.length
        · rw [simpleSolver_cons_ok rhs y0 t0 rest Iv l hr hl] at h
          cases h
          rfl
        · rw [simpleSolver_cons_mismatch rhs y0 t0 rest Iv l hr hl] at h
          exact absurd h (by simp)
  · intro rhs y0 t0 t1 rest Iv e hr
    exact ⟨e, simpleSolver_cons_rhs_error rhs y0 t0 (t1 :: rest) Iv e hr⟩
  · intro rhs y0 t0 t1 rest Iv l hr hl
    exact ⟨_, simpleSolver_cons_mismatch rhs y0 t0 (t1 :: rest) Iv l hr hl⟩
  · intro rhs y0 t0 Iv l hr hl
    rw [simpleSolver_cons_ok rhs y0 t0 [] Iv l hr hl]
    rfl


theorem lazySolver_nil (rhs : RHS) (y0 : List ℚ) (Iv : ℚ) :
    lazySolver rhs y0 [] Iv = .error "odeint: empty time sequence" := rfl

theorem lazySolver_single (rhs : RHS) (y0 : List ℚ) (t0 : ℚ) (Iv : ℚ) :
    lazySolver rhs y0 [t0] Iv = .ok [y0] := rfl

theorem lazySolver_cons2_rhs_error (rhs : RHS) (y0 : List ℚ) (t0 t1 : ℚ)
    (rest : List ℚ) (Iv : ℚ) (e : String) (hr : rhs y0 t0 Iv = .error e) :
    lazySolver rhs y0 (t0 :: t1 :: rest) Iv = .error e := by
  unfold lazySolver
  simp only [hr]

theorem lazySolver_cons2_ok (rhs : RHS) (y0 : List ℚ) (t0 t1 : ℚ) (rest : List ℚ)
    (Iv : ℚ) (l : List ℚ) (hr : rhs y0 t0 Iv = .ok l) (hl : l.length = y0.length) :
    lazySolver rhs y0 (t0 :: t1 :: rest) Iv =
      .ok ((t0 :: t1 :: rest).map (fun _ => y0)) := by
  unfold lazySolver
  simp only [hr, if_pos hl]

theorem lazySolver_cons2_mismatch (rhs : RHS) (y0 : List ℚ) (t0 t1 : ℚ)
    (rest : List ℚ) (Iv : ℚ) (l : List ℚ) (hr : rhs y0 t0 Iv = .ok l)
    (hl : l.length ≠ y0.length) :
    lazySolver rhs y0 (t0 :: t1 :: rest) Iv =
      .error "RuntimeError: the size of the array returned by func does not match y0" := by
  unfold lazySolver
  simp only [hr, if_neg hl]

theorem lazySolver_contract : OdeintContract lazySolver := by
  constructor
  · intro rhs y0 t Iv X h
    rcases t with - | ⟨t0, rest⟩
    · rw [lazySolver_nil] at h
      exact absurd h (by simp)
    rcases rest with - | ⟨t1, rest⟩
    · rw [lazySolver_single] at h
      cases h
      rfl
    · rcases hr : rhs y0 t0 Iv with e | l
      · rw [lazySolver_cons2_rhs_error rhs y0 t0 t1 rest Iv e hr] at h
        exact absurd h (by simp)
      · by_cases hl : l.length = y0.length
        · rw [lazySolver_cons2_ok rhs y0 t0 t1 rest Iv l hr hl] at h
          cases h
          rw [List.length_map]
        · rw [lazySolver_cons2_mismatch rhs y0 t0 t1 rest Iv l hr hl] at h
          exact absurd h (by simp)
  · intro rhs y0 t Iv X h row hrow
    rcases t with - | ⟨t0, rest⟩
    · rw [lazySolver_nil] at h
      exact absurd h (by simp)
    rcases rest with - | ⟨t1, rest⟩
    · rw [lazySolver_single] at h
      cases h
      rw [List.mem_singleton] at hrow
      rw [hrow]
    · rcases hr : rhs y0 t0 Iv with e | l
      · rw [lazySolver_cons2_rhs_error rhs y0 t0 t1 rest Iv e hr] at h
        exact absurd h (by simp)
      · by_cases hl : l.length = y0.length
        · rw [lazySolver_cons2_ok rhs y0 t0 t1 rest Iv l hr hl] at h
          cases h
          rw [List.mem_map] at hrow
          obtain ⟨i, -, rfl⟩ := hrow
          rfl
        · rw [lazySolver_cons2_mismatch rhs y0 t0 t1 rest Iv l hr hl] at h
          exact absurd h (by simp)
  · intro rhs y0 t Iv X h hne
    rcases t with - | ⟨t0, rest⟩
    · exact absurd rfl hne
    rcases rest with - | ⟨t1, rest⟩
    · rw [lazySolver_single] at h
      cases h
      rfl
    · rcases hr : rhs y0 t0 Iv with e | l
      · rw [lazySolver_cons2_rhs_error rhs y0 t0 t1 rest Iv e hr] at h
        exact absurd h (by simp)
      · by_cases hl : l.length = y0.length
        · rw [lazySolver_cons2_ok rhs y0 t0 t1 rest Iv l hr hl] at h
          cases h
          rfl
        · rw [lazySolver_cons2_mismatch rhs y0 t0 t1 rest Iv l hr hl] at h
          exact absurd h (by simp)
  · intro rhs y0 t0 t1 rest Iv e hr
    exact ⟨e, lazySolver_cons2_rhs_error rhs y0 t0 t1 rest Iv e hr⟩
  · intro rhs y0 t0 t1 rest Iv l hr hl
    exact ⟨_, lazySolver_cons2_mismatch rhs y0 t0 t1 rest Iv l hr hl⟩
  · intro rhs y0 t0 Iv l hr hl
    exact lazySolver_single rhs y0 t0 Iv

/-- A small model with a two-point grid, used to instantiate the
solver-parametric theorems on a successful run. -/
def hrTwoStep : HindmarshRose := { dt := 1, time := 2 }

/-- A model with both `dt` and `time` negative: its grid is the single
point `[0]`. -/
def hrNegNeg : HindmarshRose := { dt := -1, time := -1 }

theorem hrTwoStep_tvec : hrTwoStep.tvec = .ok [0, 1] := by
  rw [HindmarshRose.tvec, arange_ok _ _ _ (by norm_num [hrTwoStep])]
  have h1 : ((hrTwoStep.time - 0) / hrTwoStep.dt) = ((2 : ℤ) : ℚ) := by
    norm_num [hrTwoStep]
  rw [h1, Int.ceil_intCast]
  show Except.ok ((List.range 2).map _) = _
  rw [show List.range 2 = [0, 1] from rfl]
  simp only [List.map_cons, List.map_nil]
  norm_num [hrTwoStep]

theorem hrNegNeg_tvec : hrNegNeg.tvec = .ok [0] := by
  rw [HindmarshRose.tvec, arange_ok _ _ _ (by norm_num [hrNegNeg])]
  have h1 : ((hrNegNeg.time - 0) / hrNegNeg.dt) = ((1 : ℤ) : ℚ) := by
    norm_num [hrNegNeg]
  rw [h1, Int.ceil_intCast]
  show Except.ok ((List.range 1).map _) = _
  rw [show List.range 1 = [0] from rfl]
  simp only [List.map_cons, List.map_nil]
  norm_num [hrNegNeg]

theorem hrTwoStep_rhs : hrTwoStep.system_equations [0, 0, 0] 0 hrTwoStep.I =
    .ok [1, 1/2, 1] := by
  norm_num [HindmarshRose.system_equations, hrTwoStep]

theorem hrNegNeg_rhs : hrNegNeg.system_equations [0, 0, 0] 0 hrNegNeg.I =
    .ok [1, 1/2, 1] := by
  norm_num [HindmarshRose.system_equations, hrNegNeg]

theorem hrTwoStep_run : hrTwoStep.run simpleSolver [0, 0, 0] none =
    ({ hrTwoStep with x := [0, 0], y := [0, 0], z := [0, 0] }, none) := by
  rw [run_none_eq]
  have hs : simpleSolver hrTwoStep.system_equations [0, 0, 0] [0, 1] hrTwoStep.I =
      .ok [[0, 0, 0], [0, 0, 0]] := by
    rw [simpleSolver_cons_ok _ _ _ _ _ _ hrTwoStep_rhs rfl]
    rfl
  rw [integrate_of_success hrTwoStep simpleSolver [0, 0, 0] hrTwoStep.I [0, 1]
    [[0, 0, 0], [0, 0, 0]] hrTwoStep_tvec hs rfl]
  rfl

theorem hrNegNeg_run : hrNegNeg.run simpleSolver [0, 0, 0] none =
    ({ hrNegNeg with x := [0], y := [0], z := [0] }, none) := by
  rw [run_none_eq]
  have hs : simpleSolver hrNegNeg.system_equations [0, 0, 0] [0] hrNegNeg.I =
      .ok [[0, 0, 0]] := by
    rw [simpleSolver_cons_ok _ _ _ _ _ _ hrNegNeg_rhs rfl]
    rfl
  rw [integrate_of_success hrNegNeg simpleSolver [0, 0, 0] hrNegNeg.I [0]
    [[0, 0, 0]] hrNegNeg_tvec hs rfl]
  rfl

/-- A model whose grid is the single point `[0]` (`ceil(1/1) = 1`). -/
def hrOnePoint : HindmarshRose := { dt := 1, time := 1 }

theorem hrOnePoint_tvec : hrOnePoint.tvec = .ok [0] := by
  rw [HindmarshRose.tvec, arange_ok _ _ _ (by norm_num [hrOnePoint])]
  have h1 : ((hrOnePoint.time - 0) / hrOnePoint.dt) = ((1 : ℤ) : ℚ) := by
    norm_num [hrOnePoint]
  rw [h1, Int.ceil_intCast]
  show Except.ok ((List.range 1).map _) = _
  rw [show List.range 1 = [0] from rfl]
  simp only [List.map_cons, List.map_nil]
  norm_num [hrOnePoint]

theorem hrOnePoint_run_long : hrOnePoint.run lazySolver [0, 0, 0, 1] none =
    ({ hrOnePoint with x := [0], y := [0], z := [0] }, none) := by
  rw [run_none_eq]
  rw [integrate_of_success hrOnePoint lazySolver [0, 0, 0, 1] hrOnePoint.I [0]
    [[0, 0, 0, 1]] hrOnePoint_tvec (lazySolver_single _ _ _ _) rfl]
  rfl

/-! ## Claim theorems -/

/-- C1: `system_equations` is a pure function of the state 3-vector and the
current scalar (its `t` argument is unused), returning the derivative
3-vector `[y - a*x^3 + b*x^2 - z + I, c - d*x^2 - y, r*(s*(x - x1) - z)]`;
at state `[1, 0, 0]`, `t = 0`, current `0` and the default coefficients it
returns `[0, 0, 2]`. -/
theorem system_equations_rhs :
    (∀ (m : HindmarshRose) (X : List ℚ) (t t2 Iv : ℚ),
      m.system_equations X t Iv = m.system_equations X t2 Iv) ∧
    (∀ (m : HindmarshRose) (xv yv zv t Iv : ℚ),
      m.system_equations [xv, yv, zv] t Iv =
        .ok [yv - m.a * xv ^ 3 + m.b * xv ^ 2 - zv + Iv,
             m.c - m.d * xv ^ 2 - yv,
             m.r * (m.s * (xv - m.x1) - zv)]) ∧
    HindmarshRose.system_equations {} [1, 0, 0] 0 0 = .ok [0, 0, 2] := by
  refine ⟨fun m X t t2 Iv => rfl, fun m xv yv zv t Iv => rfl, ?_⟩
  norm_num [HindmarshRose.system_equations]

/-- C2: with `dt > 0` and `time > 0`, `tvec` is the half-open grid
`[0, time)`: it has `⌈time / dt⌉` points (which is exactly `time / dt` when
that ratio is an integer), the `i`-th point is `i * dt`, every point lies in
`[0, time)`; with the defaults `time = 100`, `dt = 1/100` it has exactly
10000 points, starts at `0` and ends at `9999/100 = 99.99`. -/
theorem tvec_half_open_grid :
    (∀ m : HindmarshRose, 0 < m.dt → 0 < m.time →
      ∃ l, m.tvec = .ok l ∧
        l.length = (⌈m.time / m.dt⌉).toNat ∧
        (∀ i : ℕ, i < l.length → l[i]? = some ((i : ℚ) * m.dt)) ∧
        (∀ q ∈ l, 0 ≤ q ∧ q < m.time)) ∧
    (∃ l, HindmarshRose.tvec {} = .ok l ∧ l.length = 10000 ∧
      l[0]? = some 0 ∧ l[9999]? = some (9999 / 100)) := by
  refine ⟨fun m hdt ht => tvec_grid_of_pos m hdt ht, ?_⟩
  obtain ⟨l, hl, hlen, hget, _⟩ := tvec_grid_of_pos {} (by norm_num) (by norm_num)
  have h1 : (({} : HindmarshRose).time / ({} : HindmarshRose).dt) = ((10000 : ℤ) : ℚ) := by
    norm_num
  rw [h1, Int.ceil_intCast] at hlen
  have hlen10 : l.length = 10000 := hlen
  refine ⟨l, hl, hlen10, ?_, ?_⟩
  · have h0 := hget 0 (by omega)
    simpa using h0
  · have h9 := hget 9999 (by omega)
    rw [h9]
    norm_num

theorem integrate_fst_config (m : HindmarshRose) (f : SolverFn) (X0 : List ℚ) (Ieff : ℚ) :
    (m.integrate f X0 Ieff).1.I = m.I ∧ (m.integrate f X0 Ieff).1.a = m.a ∧
    (m.integrate f X0 Ieff).1.b = m.b ∧ (m.integrate f X0 Ieff).1.c = m.c ∧
    (m.integrate f X0 Ieff).1.d = m.d ∧ (m.integrate f X0 Ieff).1.r = m.r ∧
    (m.integrate f X0 Ieff).1.s = m.s ∧ (m.integrate f X0 Ieff).1.x1 = m.x1 ∧
    (m.integrate f X0 Ieff).1.dt = m.dt ∧ (m.integrate f X0 Ieff).1.time = m.time := by
  rcases integrate_cases m f X0 Ieff with ⟨e, he⟩ | ⟨t, X, ht, hX, hall, hres⟩
  · rw [he]
    exact ⟨rfl, rfl, rfl, rfl, rfl, rfl, rfl, rfl, rfl, rfl⟩
  · rw [hres]
    exact ⟨rfl, rfl, rfl, rfl, rfl, rfl, rfl, rfl, rfl, rfl⟩

theorem integrate_success_align (f : SolverFn) (hf : OdeintContract f)
    (m : HindmarshRose) (X0 : List ℚ) (Ieff : ℚ) (m2 : HindmarshRose)
    (h : m.integrate f X0 Ieff = (m2, none)) :
    ∃ t, m2.tvec = .ok t ∧ m2.x.length = t.length ∧ m2.y.length = t.length ∧
      m2.z.length = t.length := by
  rcases integrate_cases m f X0 Ieff with ⟨e, he⟩ | ⟨t, X, ht, hX, hall, hres⟩
  · rw [he] at h
    have hcontra := congrArg Prod.snd h
    simp at hcontra
  · rw [hres] at h
    have h1 : ({ m with x := column X 0, y := column X 1, z := column X 2 }
        : HindmarshRose) = m2 := congrArg Prod.fst h
    have hXlen : X.length = t.length := hf.length_eq _ _ _ _ _ hX
    refine ⟨t, ?_, ?_, ?_, ?_⟩
    · rw [← h1, tvec_mk_traj]
      exact ht
    · rw [← h1]
      show (column X 0).length = t.length
      rw [column, List.length_map, hXlen]
    · rw [← h1]
      show (column X 1).length = t.length
      rw [column, List.length_map, hXlen]
    · rw [← h1]
      show (column X 2).length = t.length
      rw [column, List.length_map, hXlen]

/-- C3: `run(current=v)` overwrites the stored current `I` with `v`; a
subsequent `run()` with the current omitted reproduces exactly the explicit
`run(current=v)` call from the same initial state; and `run()` with the
current omitted behaves as `run(current=<stored I>)`. -/
theorem run_current_override (f : SolverFn) (m : HindmarshRose) (X0 : List ℚ) (v : ℚ) :
    (m.run f X0 (some v)).1.I = v ∧
    (m.run f X0 (some v)).1.run f X0 none = m.run f X0 (some v) ∧
    m.run f X0 none = m.run f X0 (some m.I) := by
  refine ⟨?_, ?_, rfl⟩
  · rw [run_some_eq]
    exact (integrate_fst_config { m with I := v } f X0 v).1
  · rw [run_some_eq]
    rcases integrate_cases { m with I := v } f X0 v with ⟨e, he⟩ | ⟨t, X, ht, hX, hall, hres⟩
    · rw [he]
      rw [run_none_eq]
      exact he
    · rw [hres]
      rw [run_none_eq]
      have h2 := (integrate_update_traj { m with I := v } f X0 v
        (column X 0) (column X 1) (column X 2)).2 (by rw [hres])
      exact h2.trans hres

/-- C8: `run` is deterministic: two invocations with identical configuration
(the ten stored parameters), identical initial state and identical current
argument produce the same outcome — the same raised error if any, and on
success the entire resulting object, trajectories included, is the same
(previously stored trajectories do not influence the result). -/
theorem run_deterministic (f : SolverFn) (m : HindmarshRose) (X0 : List ℚ)
    (Iarg : Option ℚ) (A B C : List ℚ) :
    ((HindmarshRose.run { m with x := A, y := B, z := C } f X0 Iarg).2 =
      (m.run f X0 Iarg).2) ∧
    ((m.run f X0 Iarg).2 = none →
      HindmarshRose.run { m with x := A, y := B, z := C } f X0 Iarg =
        m.run f X0 Iarg) := by
  cases Iarg with
  | none =>
    rw [run_none_eq, run_none_eq]
    exact integrate_update_traj m f X0 m.I A B C
  | some v =>
    rw [run_some_eq, run_some_eq]
    exact integrate_update_traj { m with I := v } f X0 v A B C

/-- C7: after a successful `run`, the stored sequences `x`, `y`, `z` all
have the length of the time grid, and the produced trajectory is
independent of (overwrites) whatever trajectory was stored before. -/
theorem run_trajectory_alignment (f : SolverFn) (hf : OdeintContract f)
    (m : HindmarshRose) (X0 : List ℚ) (Iarg : Option ℚ) (m2 : HindmarshRose)
    (hrun : m.run f X0 Iarg = (m2, none)) :
    (∃ t, m2.tvec = .ok t ∧ m2.x.length = t.length ∧ m2.y.length = t.length ∧
      m2.z.length = t.length) ∧
    (∀ A B C : List ℚ,
      HindmarshRose.run { m with x := A, y := B, z := C } f X0 Iarg = (m2, none)) := by
  have hover : ∀ A B C : List ℚ,
      HindmarshRose.run { m with x := A, y := B, z := C } f X0 Iarg = (m2, none) := by
    intro A B C
    cases Iarg with
    | none =>
      rw [run_none_eq] at hrun ⊢
      have h2 := (integrate_update_traj m f X0 m.I A B C).2 (by rw [hrun])
      exact h2.trans hrun
    | some v =>
      rw [run_some_eq] at hrun ⊢
      have h2 := (integrate_update_traj { m with I := v } f X0 v A B C).2 (by rw [hrun])
      exact h2.trans hrun
  refine ⟨?_, hover⟩
  cases Iarg with
  | none =>
    rw [run_none_eq] at hrun
    exact integrate_success_align f hf m X0 m.I m2 hrun
  | some v =>
    rw [run_some_eq] at hrun
    exact integrate_success_align f hf { m with I := v } X0 v m2 hrun

/-- C10: a successful `run` leaves the eight coefficients and `dt`, `time`
unchanged; it only rewrites `x`, `y`, `z` and — exactly when an explicit
current was supplied — the stored `I`; with the current omitted the stored
`I` is unchanged (in particular it is never cleared). -/
theorem run_config_frame (f : SolverFn) (m : HindmarshRose) (X0 : List ℚ)
    (Iarg : Option ℚ) (m2 : HindmarshRose) (hrun : m.run f X0 Iarg = (m2, none)) :
    m2.a = m.a ∧ m2.b = m.b ∧ m2.c = m.c ∧ m2.d = m.d ∧ m2.r = m.r ∧ m2.s = m.s ∧
    m2.x1 = m.x1 ∧ m2.dt = m.dt ∧ m2.time = m.time ∧
    (Iarg = none → m2.I = m.I) ∧ (∀ v, Iarg = some v → m2.I = v) := by
  cases Iarg with
  | none =>
    rw [run_none_eq] at hrun
    have hm2 : (m.integrate f X0 m.I).1 = m2 := by rw [hrun]
    obtain ⟨hI, ha, hb, hc, hd, hr, hs, hx1, hdt, htime⟩ := integrate_fst_config m f X0 m.I
    rw [hm2] at hI ha hb hc hd hr hs hx1 hdt htime
    refine ⟨ha, hb, hc, hd, hr, hs, hx1, hdt, htime, fun _ => hI, ?_⟩
    intro v hv
    cases hv
  | some v =>
    rw [run_some_eq] at hrun
    have hm2 : (HindmarshRose.integrate { m with I := v } f X0 v).1 = m2 := by rw [hrun]
    obtain ⟨hI, ha, hb, hc, hd, hr, hs, hx1, hdt, htime⟩ :=
      integrate_fst_config { m with I := v } f X0 v
    rw [hm2] at hI ha hb hc hd hr hs hx1 hdt htime
    refine ⟨ha, hb, hc, hd, hr, hs, hx1, hdt, htime, ?_, ?_⟩
    · intro hv
      cases hv
    · intro v2 hv2
      cases hv2
      exact hI

theorem integrate_bad_state (f : SolverFn) (hf : OdeintContract f)
    (m : HindmarshRose) (X0 : List ℚ) (Ieff : ℚ)
    (hdt : 0 < m.dt) (hlt : m.dt < m.time) (hX0 : X0.length ≠ 3) :
    ∃ e, (m.integrate f X0 Ieff).2 = some e := by
  obtain ⟨l, hl, hlen, hget, hmem⟩ := tvec_grid_of_pos m hdt (lt_trans hdt hlt)
  have hq : (1 : ℚ) < m.time / m.dt := (one_lt_div hdt).mpr hlt
  have hc : (1 : ℤ) < ⌈m.time / m.dt⌉ := by
    rw [Int.lt_ceil]
    exact_mod_cast hq
  have hlen2 : 2 ≤ l.length := by
    rw [hlen]
    omega
  rcases l with - | ⟨t0, rest⟩
  · simp at hlen2
  rcases rest with - | ⟨t1, rest⟩
  · simp at hlen2
  rcases lt_or_le X0.length 3 with hshort | hlong
  · obtain ⟨e, he⟩ := se_error_of_short m X0 t0 Ieff hshort
    obtain ⟨e2, he2⟩ := hf.rhs_error _ _ _ _ _ _ _ he
    refine ⟨e2, ?_⟩
    rw [integrate_of_solver_error m f X0 Ieff _ e2 hl he2]
  · obtain ⟨lv, hlv, hlen3⟩ := se_ok_of_long m X0 t0 Ieff hlong
    have hne2 : lv.length ≠ X0.length := by omega
    obtain ⟨e2, he2⟩ := hf.size_mismatch _ _ _ _ _ _ _ hlv hne2
    refine ⟨e2, ?_⟩
    rw [integrate_of_solver_error m f X0 Ieff _ e2 hl he2]

theorem integrate_short_state (f : SolverFn) (hf : OdeintContract f)
    (m : HindmarshRose) (X0 : List ℚ) (Ieff : ℚ)
    (hdt : 0 < m.dt) (ht : 0 < m.time) (hX0 : X0.length < 3) :
    ∃ e, (m.integrate f X0 Ieff).2 = some e := by
  obtain ⟨l, hl, hlen, hget, hmem⟩ := tvec_grid_of_pos m hdt ht
  have hq : (0 : ℚ) < m.time / m.dt := div_pos ht hdt
  have hc : (0 : ℤ) < ⌈m.time / m.dt⌉ := by
    rw [Int.lt_ceil]
    exact_mod_cast hq
  have hlen1 : 1 ≤ l.length := by
    rw [hlen]
    omega
  rcases l with - | ⟨t0, rest⟩
  · simp at hlen1
  rcases rest with - | ⟨t1, rest⟩
  · rcases hsol : f m.system_equations X0 [t0] Ieff with e | X
    · refine ⟨e, ?_⟩
      rw [integrate_of_solver_error m f X0 Ieff [t0] e hl hsol]
    · have hXlen : X.length = 1 := by
        have hx := hf.length_eq _ _ _ _ _ hsol
        simpa using hx
      have hrows := hf.row_length _ _ _ _ _ hsol
      have hallfalse : ¬ (X.all fun row => 2 < row.length) = true := by
        rcases X with - | ⟨row, xrest⟩
        · simp at hXlen
        · intro hall
          simp only [List.all_cons, Bool.and_eq_true, decide_eq_true_eq] at hall
          have hrl := hrows row (List.mem_cons_self _ _)
          omega
      refine ⟨"IndexError: index 2 is out of bounds for axis 1", ?_⟩
      rw [integrate_of_unpack_error m f X0 Ieff [t0] X hl hsol hallfalse]
  · obtain ⟨e, he⟩ := se_error_of_short m X0 t0 Ieff hX0
    obtain ⟨e2, he2⟩ := hf.rhs_error _ _ _ _ _ _ _ he
    refine ⟨e2, ?_⟩
    rw [integrate_of_solver_error m f X0 Ieff _ e2 hl he2]

/-- C6 (amended): when the time grid has at least two points
(`0 < dt < time`, as the defaults have), an initial state of any length
other than 3 makes `run` raise immediately (IndexError from the right-hand
side below length 3, the solver size-mismatch error above it); and on every
non-empty grid (`0 < dt`, `0 < time`) a state shorter than 3 still raises
(if not from the right-hand side, then from the column unpacking `X[:, 2]`).
But on a one-point grid a state longer than 3 can make `run` succeed,
because `odeint` never evaluates the right-hand side when only the initial
time is requested and the column slices exist (see the counterexample), so
the unconditional claim does not hold. -/
theorem run_bad_initial_state :
    (∀ (f : SolverFn), OdeintContract f →
      ∀ (m : HindmarshRose) (X0 : List ℚ) (Iarg : Option ℚ),
        0 < m.dt → m.dt < m.time → X0.length ≠ 3 →
        ∃ e, (m.run f X0 Iarg).2 = some e) ∧
    (∀ (f : SolverFn), OdeintContract f →
      ∀ (m : HindmarshRose) (X0 : List ℚ) (Iarg : Option ℚ),
        0 < m.dt → 0 < m.time → X0.length < 3 →
        ∃ e, (m.run f X0 Iarg).2 = some e) := by
  constructor
  · intro f hf m X0 Iarg hdt hlt hX0
    cases Iarg with
    | none =>
      rw [run_none_eq]
      exact integrate_bad_state f hf m X0 m.I hdt hlt hX0
    | some v =>
      rw [run_some_eq]
      exact integrate_bad_state f hf { m with I := v } X0 v hdt hlt hX0
  · intro f hf m X0 Iarg hdt ht hX0
    cases Iarg with
    | none =>
      rw [run_none_eq]
      exact integrate_short_state f hf m X0 m.I hdt ht hX0
    | some v =>
      rw [run_some_eq]
      exact integrate_short_state f hf { m with I := v } X0 v hdt ht hX0

/-- C6 counterexample: on the model `dt = 1, time = 1` — which passes
construction — the grid is the single point `[0]`; with the 4-element
initial state `[0, 0, 0, 1]` the run completes without any error (under a
solver satisfying the documented odeint interface, which never evaluates
the right-hand side on a one-point grid) and stores a trajectory, so "a
non-3-element initial state always makes run fail" is false as stated. -/
theorem run_long_initial_state_succeeds :
    ([0, 0, 0, 1] : List ℚ).length ≠ 3 ∧
    (hrOnePoint.run lazySolver [0, 0, 0, 1] none).2 = none ∧
    (hrOnePoint.run lazySolver [0, 0, 0, 1] none).1.x = [0] := by
  refine ⟨by decide, ?_, ?_⟩
  · rw [hrOnePoint_run_long]
  · rw [hrOnePoint_run_long]

/-- C5 (amended): `run` on a model with `dt = 0` fails with the
zero-division error raised while building the time grid, whatever the
solver; and the time grid is empty whenever `dt` and `time` are of opposite
sign (`dt < 0 ≤ time`, or `time ≤ 0 < dt`).  When `dt` and `time` are both
negative, however, the grid is non-empty and `run` can succeed (see the
counterexample), so failure does not extend to every `dt < 0`. -/
theorem run_degenerate_grid :
    (∀ (f : SolverFn) (m : HindmarshRose) (X0 : List ℚ) (Iarg : Option ℚ),
      m.dt = 0 → (m.run f X0 Iarg).2 = some "ZeroDivisionError: division by zero") ∧
    (∀ m : HindmarshRose, m.dt < 0 → 0 ≤ m.time → m.tvec = .ok []) ∧
    (∀ m : HindmarshRose, 0 < m.dt → m.time ≤ 0 → m.tvec = .ok []) := by
  have htv : ∀ m1 : HindmarshRose, m1.dt = 0 →
      m1.tvec = .error "ZeroDivisionError: division by zero" := by
    intro m1 h
    rw [HindmarshRose.tvec, arange, if_pos h]
  refine ⟨?_, ?_, ?_⟩
  · intro f m X0 Iarg h0
    cases Iarg with
    | none =>
      rw [run_none_eq, integrate_of_tvec_error _ _ _ _ _ (htv m h0)]
    | some v =>
      rw [run_some_eq, integrate_of_tvec_error _ _ _ _ _ (htv { m with I := v } h0)]
  · intro m hdt ht
    have hne : m.dt ≠ 0 := ne_of_lt hdt
    rw [HindmarshRose.tvec, arange_ok _ _ _ hne, sub_zero]
    have hq : m.time / m.dt ≤ 0 := div_nonpos_of_nonneg_of_nonpos ht hdt.le
    have hzero : (⌈m.time / m.dt⌉).toNat = 0 := Int.toNat_of_nonpos (Int.ceil_le.mpr (by exact_mod_cast hq))
    rw [hzero, List.range_zero, List.map_nil]
  · intro m hdt ht
    have hne : m.dt ≠ 0 := ne_of_gt hdt
    rw [HindmarshRose.tvec, arange_ok _ _ _ hne, sub_zero]
    have hq : m.time / m.dt ≤ 0 := div_nonpos_of_nonpos_of_nonneg ht hdt.le
    have hzero : (⌈m.time / m.dt⌉).toNat = 0 := Int.toNat_of_nonpos (Int.ceil_le.mpr (by exact_mod_cast hq))
    rw [hzero, List.range_zero, List.map_nil]

/-- C5 counterexample: `hrNegNeg` has `dt = -1 < 0` (and `time = -1 ≤ 0`),
yet `run` on it raises nothing and stores the one-point trajectory of the
single-point grid `[0]` — so "every model with `dt < 0` or `time ≤ 0`
fails" is false as stated. -/
theorem run_negative_dt_succeeds :
    hrNegNeg.dt < 0 ∧ hrNegNeg.time ≤ 0 ∧
    (hrNegNeg.run simpleSolver [0, 0, 0] none).2 = none ∧
    (hrNegNeg.run simpleSolver [0, 0, 0] none).1.x = [0] := by
  refine ⟨by norm_num [hrNegNeg], by norm_num [hrNegNeg], ?_, ?_⟩
  · rw [hrNegNeg_run]
  · rw [hrNegNeg_run]

set_option maxHeartbeats 1000000 in
theorem check_parameters_ok_iff (m : HindmarshRoseObj) :
    check_parameters m = .ok () ↔
      (m.I.isNumeric = true ∧ m.a.isNumeric = true ∧ m.b.isNumeric = true ∧
       m.c.isNumeric = true ∧ m.d.isNumeric = true ∧ m.r.isNumeric = true ∧
       m.s.isNumeric = true ∧ m.x1.isNumeric = true ∧ m.dt.isNumeric = true ∧
       m.time.isNumeric = true) := by
  unfold check_parameters
  split_ifs with h1 h2 h3 h4 h5 h6 h7 h8 h9 h10 <;>
    simp_all [Bool.not_eq_true']

/-- C4: construction succeeds exactly when all ten configuration fields are
numeric (integers, reals or booleans); a non-numeric field makes the
`isinstance` assertion fail, and a successful construction returns exactly
the fully-assigned attribute record (never a partial one). -/
theorem construction_type_validation :
    (∀ kwargs : List (String × PyVal), (∃ m, hindmarshRoseInit kwargs = .ok m) ↔
      ((initAttrs kwargs).I.isNumeric = true ∧ (initAttrs kwargs).a.isNumeric = true ∧
       (initAttrs kwargs).b.isNumeric = true ∧ (initAttrs kwargs).c.isNumeric = true ∧
       (initAttrs kwargs).d.isNumeric = true ∧ (initAttrs kwargs).r.isNumeric = true ∧
       (initAttrs kwargs).s.isNumeric = true ∧ (initAttrs kwargs).x1.isNumeric = true ∧
       (initAttrs kwargs).dt.isNumeric = true ∧ (initAttrs kwargs).time.isNumeric = true)) ∧
    (∀ kwargs m, hindmarshRoseInit kwargs = .ok m → m = initAttrs kwargs) := by
  constructor
  · intro kwargs
    constructor
    · rintro ⟨m, hm⟩
      simp only [hindmarshRoseInit] at hm
      rcases hcheck : check_parameters (initAttrs kwargs) with e | u
      · rw [hcheck] at hm
        simp at hm
      · cases u
        exact (check_parameters_ok_iff (initAttrs kwargs)).mp hcheck
    · intro hnum
      refine ⟨initAttrs kwargs, ?_⟩
      simp only [hindmarshRoseInit]
      rw [(check_parameters_ok_iff (initAttrs kwargs)).mpr hnum]
  · intro kwargs m hm
    simp only [hindmarshRoseInit] at hm
    rcases hcheck : check_parameters (initAttrs kwargs) with e | u
    · rw [hcheck] at hm
      simp at hm
    · cases u
      rw [hcheck] at hm
      simp only [] at hm
      injection hm with h
      exact h.symm

/-- C9: every omitted recognised option takes its documented default
(`I = 1`, `a = b = c = d = 1/2`, `r = s = 1`, `x1 = -1`, `dt = 1/100`,
`time = 100`), and an unrecognised option is ignored: it changes neither
the assigned attributes nor the outcome of construction. -/
theorem construction_defaults :
    ((∀ kwargs, kwargs.lookup "I" = none → (initAttrs kwargs).I = .int 1) ∧
     (∀ kwargs, kwargs.lookup "a" = none → (initAttrs kwargs).a = .float (1/2)) ∧
     (∀ kwargs, kwargs.lookup "b" = none → (initAttrs kwargs).b = .float (1/2)) ∧
     (∀ kwargs, kwargs.lookup "c" = none → (initAttrs kwargs).c = .float (1/2)) ∧
     (∀ kwargs, kwargs.lookup "d" = none → (initAttrs kwargs).d = .float (1/2)) ∧
     (∀ kwargs, kwargs.lookup "r" = none → (initAttrs kwargs).r = .int 1) ∧
     (∀ kwargs, kwargs.lookup "s" = none → (initAttrs kwargs).s = .int 1) ∧
     (∀ kwargs, kwargs.lookup "x1" = none → (initAttrs kwargs).x1 = .int (-1)) ∧
     (∀ kwargs, kwargs.lookup "dt" = none → (initAttrs kwargs).dt = .float (1/100)) ∧
     (∀ kwargs, kwargs.lookup "time" = none → (initAttrs kwargs).time = .int 100)) ∧
    (∀ kwargs key v, key ∉ recognizedOptions →
      initAttrs ((key, v) :: kwargs) = initAttrs kwargs) ∧
    (∀ kwargs key v, key ∉ recognizedOptions →
      hindmarshRoseInit ((key, v) :: kwargs) = hindmarshRoseInit kwargs) := by
  have lkp : ∀ (kwargs : List (String × PyVal)) (key : String) (v : PyVal)
      (name : String) (d : PyVal), key ≠ name →
      kwGet ((key, v) :: kwargs) name d = kwGet kwargs name d := by
    intro kwargs key v name d hne
    have hb : (name == key) = false := beq_eq_false_iff_ne.mpr (Ne.symm hne)
    simp [kwGet, List.lookup, hb]
  have hAttrs : ∀ (kwargs : List (String × PyVal)) (key : String) (v : PyVal),
      key ∉ recognizedOptions → initAttrs ((key, v) :: kwargs) = initAttrs kwargs := by
    intro kwargs key v hk
    simp only [recognizedOptions, List.mem_cons, List.not_mem_nil, or_false, not_or] at hk
    obtain ⟨k1, k2, k3, k4, k5, k6, k7, k8, k9, k10⟩ := hk
    unfold initAttrs
    rw [lkp _ _ _ "I" _ k1, lkp _ _ _ "a" _ k2, lkp _ _ _ "b" _ k3, lkp _ _ _ "c" _ k4,
      lkp _ _ _ "d" _ k5, lkp _ _ _ "r" _ k6, lkp _ _ _ "s" _ k7, lkp _ _ _ "x1" _ k8,
      lkp _ _ _ "dt" _ k9, lkp _ _ _ "time" _ k10]
  refine ⟨⟨?_, ?_, ?_, ?_, ?_, ?_, ?_, ?_, ?_, ?_⟩, hAttrs, ?_⟩
  · intro kwargs h
    simp [initAttrs, kwGet, h]
  · intro kwargs h
    simp [initAttrs, kwGet, h]
  · intro kwargs h
    simp [initAttrs, kwGet, h]
  · intro kwargs h
    simp [initAttrs, kwGet, h]
  · intro kwargs h
    simp [initAttrs, kwGet, h]
  · intro kwargs h
    simp [initAttrs, kwGet, h]
  · intro kwargs h
    simp [initAttrs, kwGet, h]
  · intro kwargs h
    simp [initAttrs, kwGet, h]
  · intro kwargs h
    simp [initAttrs, kwGet, h]
  · intro kwargs h
    simp [initAttrs, kwGet, h]
  · intro kwargs key v hk
    unfold hindmarshRoseInit
    rw [hAttrs kwargs key v hk]

/-! ## Witnesses -/

/-- Witness for C2 at the model `dt = 1`, `time = 2`. -/
theorem tvec_half_open_grid_witness :
    ∃ l, HindmarshRose.tvec { dt := 1, time := 2 } = .ok l ∧
      l.length = (⌈({ dt := 1, time := 2 } : HindmarshRose).time /
        ({ dt := 1, time := 2 } : HindmarshRose).dt⌉).toNat ∧
      (∀ i : ℕ, i < l.length →
        l[i]? = some ((i : ℚ) * ({ dt := 1, time := 2 } : HindmarshRose).dt)) ∧
      (∀ q ∈ l, 0 ≤ q ∧ q < ({ dt := 1, time := 2 } : HindmarshRose).time) :=
  tvec_half_open_grid.1 { dt := 1, time := 2 } zero_lt_one zero_lt_two

/-- Witness for C4: the all-defaults construction succeeds. -/
theorem construction_type_validation_witness :
    ∃ m, hindmarshRoseInit [] = .ok m :=
  (construction_type_validation.1 []).mpr
    ⟨rfl, rfl, rfl, rfl, rfl, rfl, rfl, rfl, rfl, rfl⟩

/-- Witness for C5 (amended) at `dt = 0`, `dt = -1` and `time = -1`. -/
theorem run_degenerate_grid_witness :
    (HindmarshRose.run { dt := 0 } simpleSolver [0, 0, 0] none).2 =
      some "ZeroDivisionError: division by zero" ∧
    HindmarshRose.tvec { dt := -1 } = .ok [] ∧
    HindmarshRose.tvec { time := -1 } = .ok [] :=
  ⟨run_degenerate_grid.1 simpleSolver { dt := 0 } [0, 0, 0] none rfl,
   run_degenerate_grid.2.1 { dt := -1 } neg_one_lt_zero (by norm_num),
   run_degenerate_grid.2.2 { time := -1 } (by norm_num) neg_one_lt_zero.le⟩

/-- Witness for C6 (amended): a 2-element initial state makes `run` raise,
both on the two-point grid and on the one-point grid. -/
theorem run_bad_initial_state_witness :
    (∃ e, (hrTwoStep.run simpleSolver [0, 0] none).2 = some e) ∧
    (∃ e, (hrOnePoint.run simpleSolver [0, 0] none).2 = some e) :=
  ⟨run_bad_initial_state.1 simpleSolver simpleSolver_contract hrTwoStep
      [0, 0] none zero_lt_one one_lt_two (by decide),
   run_bad_initial_state.2 simpleSolver simpleSolver_contract hrOnePoint
      [0, 0] none zero_lt_one zero_lt_one (by decide)⟩

/-- Witness for C7 at the successful two-step run. -/
theorem run_trajectory_alignment_witness :
    (∃ t, HindmarshRose.tvec
        { hrTwoStep with x := [0, 0], y := [0, 0], z := [0, 0] } = .ok t ∧
      ({ hrTwoStep with x := [0, 0], y := [0, 0], z := [0, 0] }
        : HindmarshRose).x.length = t.length ∧
      ({ hrTwoStep with x := [0, 0], y := [0, 0], z := [0, 0] }
        : HindmarshRose).y.length = t.length ∧
      ({ hrTwoStep with x := [0, 0], y := [0, 0], z := [0, 0] }
        : HindmarshRose).z.length = t.length) ∧
    (∀ A B C : List ℚ,
      HindmarshRose.run { hrTwoStep with x := A, y := B, z := C } simpleSolver
          [0, 0, 0] none =
        ({ hrTwoStep with x := [0, 0], y := [0, 0], z := [0, 0] }, none)) :=
  run_trajectory_alignment simpleSolver simpleSolver_contract hrTwoStep [0, 0, 0] none
    { hrTwoStep with x := [0, 0], y := [0, 0], z := [0, 0] } hrTwoStep_run

/-- Witness for C8: a stale stored trajectory does not change the outcome. -/
theorem run_deterministic_witness :
    HindmarshRose.run { hrTwoStep with x := [9], y := [9], z := [9] } simpleSolver
      [0, 0, 0] none = hrTwoStep.run simpleSolver [0, 0, 0] none :=
  (run_deterministic simpleSolver hrTwoStep [0, 0, 0] none [9] [9] [9]).2
    (by rw [hrTwoStep_run])

/-- Witness for C9: an unrecognised option `alpha` is ignored. -/
theorem construction_defaults_witness :
    (initAttrs [("alpha", .int 7)]).I = .int 1 ∧
    initAttrs [("alpha", .int 7)] = initAttrs [] ∧
    hindmarshRoseInit [("alpha", .int 7)] = hindmarshRoseInit [] :=
  ⟨construction_defaults.1.1 [("alpha", .int 7)] rfl,
   construction_defaults.2.1 [] "alpha" (.int 7) (by decide),
   construction_defaults.2.2 [] "alpha" (.int 7) (by decide)⟩

/-- Witness for C10 at the successful two-step run. -/
theorem run_config_frame_witness :
    ({ hrTwoStep with x := [0, 0], y := [0, 0], z := [0, 0] }
      : HindmarshRose).a = hrTwoStep.a ∧
    ({ hrTwoStep with x := [0, 0], y := [0, 0], z := [0, 0] }
      : HindmarshRose).b = hrTwoStep.b ∧
    ({ hrTwoStep with x := [0, 0], y := [0, 0], z := [0, 0] }
      : HindmarshRose).c = hrTwoStep.c ∧
    ({ hrTwoStep with x := [0, 0], y := [0, 0], z := [0, 0] }
      : HindmarshRose).d = hrTwoStep.d ∧
    ({ hrTwoStep with x := [0, 0], y := [0, 0], z := [0, 0] }
      : HindmarshRose).r = hrTwoStep.r ∧
    ({ hrTwoStep with x := [0, 0], y := [0, 0], z := [0, 0] }
      : HindmarshRose).s = hrTwoStep.s ∧
    ({ hrTwoStep with x := [0, 0], y := [0, 0], z := [0, 0] }
      : HindmarshRose).x1 = hrTwoStep.x1 ∧
    ({ hrTwoStep with x := [0, 0], y := [0, 0], z := [0, 0] }
      : HindmarshRose).dt = hrTwoStep.dt ∧
    ({ hrTwoStep with x := [0, 0], y := [0, 0], z := [0, 0] }
      : HindmarshRose).time = hrTwoStep.time ∧
    ((none : Option ℚ) = none →
      ({ hrTwoStep with x := [0, 0], y := [0, 0], z := [0, 0] }
        : HindmarshRose).I = hrTwoStep.I) ∧
    (∀ v : ℚ, (none : Option ℚ) = some v →
      ({ hrTwoStep with x := [0, 0], y := [0, 0], z := [0, 0] }
        : HindmarshRose).I = v) :=
  run_config_frame simpleSolver hrTwoStep [0, 0, 0] none
    { hrTwoStep with x := [0, 0], y := [0, 0], z := [0, 0] } hrTwoStep_run
